import Mathlib

/-!
Verification of the viuer resize/render core (src/src/lib.rs) against its
natural-language specification.

The embedding models the program at the level the specification speaks about:
pixel dimensions for the resize policy, and the rendered cell grid for the
block printer. All machine integers are carried as `Nat` holding the value of
the corresponding `u32`/`u16`; the only arithmetic operation in the modelled
code that can overflow its Rust type, the cell-to-pixel doubling `2 * h` on
`u32` and the row reservation `term_h - 1` on `u16`, are reduced modulo
2^32 resp. 2^16 as Rust release builds do.
-/

namespace Viuer

/-- Largest value representable by Rust `u32`. -/
def u32Max : Nat := 4294967295

/-- Modulus of Rust `u32` arithmetic (2^32). -/
def u32Mod : Nat := 4294967296

/-- Modulus of Rust `u16` arithmetic (2^16). -/
def u16Mod : Nat := 65536

/-- Embedding of `resize_dimensions(width, height, nwidth, nheight, fill = false)`
from the `image` crate that `DynamicImage::thumbnail` uses to pick the output
dimensions. The repository's unit tests (src/src/lib.rs:163-226) pin this to
the integer, truncating algorithm: 1000x800 bounded by (80, 46) must yield
57x46, i.e. 1000*46/800 = 57 truncated (a round-to-nearest algorithm would
produce 58). The axis whose bound is the tighter constraint is scaled to its
bound and the other axis is derived by truncating integer division of the
exact aspect ratio, with a lower bound of one pixel and a clamp at
`u32::MAX`. -/
def resize_dimensions (width height nwidth nheight : Nat) : Nat × Nat :=
  if nwidth * height ≤ width * nheight then
    if max 1 (height * nwidth / width) ≤ u32Max then
      (nwidth, max 1 (height * nwidth / width))
    else (nwidth * u32Max / max 1 (height * nwidth / width), u32Max)
  else
    if max 1 (width * nheight / height) ≤ u32Max then
      (max 1 (width * nheight / height), nheight)
    else (u32Max, nheight * u32Max / max 1 (width * nheight / height))

/-- Wrapping `u16` decrement embedding the `term_h - 1` of src/src/lib.rs:130:
in the release profile `0u16 - 1` wraps around to 65535 before the widening
conversion `u32::from`. -/
def termRowsSub1 (term_h : Nat) : Nat := (term_h + 65535) % u16Mod

/-- Embedding of `resize` from src/src/lib.rs:113-148 at the level of pixel
dimensions. `ow`, `oh` are the source image's dimensions (`img.dimensions()`),
`width`/`height` the optional cell bounds, and `term` the `(columns, rows)`
pair reported by `utils::terminal_size()` (the terminal geometry is passed
explicitly; it is the injected leaf collaborator of the design). Each match
arm receives exactly the `print_width`/`print_height` values the source
computes before its own `match (width, height)`:
with `Some(w)` the width bound is `w`; with `Some(h)` the height bound is
`2 * h` in `u32` arithmetic; in the both-`None` arm the bounds start at the
image's own dimensions and are clamped by the terminal: width by `term_w`,
and height, when it exceeds `term_h - 1`, to twice that quantity. The first
three arms return the dimensions `DynamicImage::thumbnail` produces
(`resize_dimensions`), the last the ones of `thumbnail_exact` (exactly its
arguments). -/
def resizeDims (ow oh : Nat) (width height : Option Nat) (term : Nat × Nat) : Nat × Nat :=
  match width, height with
  | none, none =>
      resize_dimensions ow oh
        (if ow > term.1 then term.1 else ow)
        (if oh > termRowsSub1 term.2 then 2 * termRowsSub1 term.2 else oh)
  | some w, none => resize_dimensions ow oh w oh
  | none, some h => resize_dimensions ow oh ow (2 * h % u32Mod)
  | some w, some h => (w, 2 * h % u32Mod)

/-- Round-to-nearest division (halves rounded up): the rounding mode the
specification's width-only property asserts for the derived height. -/
def roundDiv (a b : Nat) : Nat := (2 * a + b) / (2 * b)

/-- An RGBA pixel, each channel in [0, 255] (spec data model). -/
structure Pixel where
  r : Nat
  g : Nat
  b : Nat
  a : Nat

/-- A decoded raster image: a pixel grid together with its dimensions. -/
structure Image where
  width : Nat
  height : Nat
  pix : Nat → Nat → Pixel

/-- Modelled from the spec: `config.rs` is not under src/. The RenderConfig of
spec section 3 holds the optional cell width and height, the resize flag and
the transparency flag; these are exactly the fields src/src/lib.rs reads
(`config.resize`, `config.width`, `config.height`). -/
structure Config where
  width : Option Nat
  height : Option Nat
  resize : Bool
  transparent : Bool

/-- One rendered terminal cell: the colors painted on the upper and the lower
half-block; `none` means the half is left unpainted (terminal background shows
through, or the lower half is absent on an odd trailing row). -/
structure Cell where
  upper : Option (Nat × Nat × Nat)
  lower : Option (Nat × Nat × Nat)

/-- Modelled from the spec: the opaque fallback for transparent pixels is an
alternating checkerboard pattern (spec section 4.2; the concrete colors are an
implementation choice left open by section 9). -/
def checkerColor (x y : Nat) : Nat × Nat × Nat :=
  if (x + y) % 2 = 0 then (102, 102, 102) else (153, 153, 153)

/-- Modelled from the spec: the color chosen for one half-cell (spec section
4.2). An opaque pixel paints its own color; a pixel below the fully-opaque
alpha threshold is left unpainted when `transparent` is set and otherwise
painted with the checkerboard fallback. -/
def halfColor (cfg : Config) (img : Image) (x y : Nat) : Option (Nat × Nat × Nat) :=
  if (img.pix x y).a < 255 then
    (if cfg.transparent then none else some (checkerColor x y))
  else some ((img.pix x y).r, (img.pix x y).g, (img.pix x y).b)

/-- Modelled from the spec: `printer.rs` is not under src/. The block printer
of spec section 4.2: rows are consumed two at a time, each pair producing one
line of cells; an image of odd height yields a final line whose lower halves
are absent. -/
def blockPrint (img : Image) (cfg : Config) : List (List Cell) :=
  (List.range ((img.height + 1) / 2)).map fun cy =>
    (List.range img.width).map fun x =>
      { upper := halfColor cfg img x (2 * cy)
        lower :=
          if 2 * cy + 1 < img.height then halfColor cfg img x (2 * cy + 1) else none }

/-- Embedding of `resize` from src/src/lib.rs:113-148 at the image level: the
output dimensions follow `resizeDims`; the pixel resampling itself is
delegated by the source to the `image` crate and is modelled from the spec as
deterministic nearest-neighbour sampling (spec section 4.1 mandates nothing
beyond determinism; the claims under verification only concern dimensions). -/
def resizeImage (img : Image) (width height : Option Nat) (term : Nat × Nat) : Image :=
  { width := (resizeDims img.width img.height width height term).1
    height := (resizeDims img.width img.height width height term).2
    pix := fun x y =>
      img.pix (x * img.width / (resizeDims img.width img.height width height term).1)
        (y * img.height / (resizeDims img.width img.height width height term).2) }

/-- A decode failure reported by the image-decoding collaborator (spec
sections 6 and 7: the decode error class). -/
structure ImageError where
  code : Nat

/-- Modelled from the spec: `error.rs` is not under src/. The error taxonomy
of spec section 7: a decode (image) error kind distinct from the I/O error
kind. -/
inductive ViuError where
  | imageError : ImageError → ViuError
  | ioError : ViuError

/-- Embedding of `print` from src/src/lib.rs:59-69: when the config's resize
flag is set, the image handed to the block printer is
`resize(img, config.width, config.height)`; otherwise the input image is
handed over unchanged. The successful result is the rendered cell grid
(writing it to the sink is the I/O collaborator). -/
def print (img : Image) (cfg : Config) (term : Nat × Nat) :
    Except ViuError (List (List Cell)) :=
  if cfg.resize then
    Except.ok (blockPrint (resizeImage img cfg.width cfg.height term) cfg)
  else Except.ok (blockPrint img cfg)

/-- Embedding of `print_from_file` from src/src/lib.rs:85-90: the decode
result of the opened file is the input (decoding is the external
collaborator); a decode failure is converted by the `?` operator into the
image-error kind and returned before `print` is reached. -/
def print_from_file (decoded : Except ImageError Image) (cfg : Config)
    (term : Nat × Nat) : Except ViuError (List (List Cell)) :=
  match decoded with
  | Except.error e => Except.error (ViuError.imageError e)
  | Except.ok img => print img cfg term

/-! ### Sanity anchors: the unit tests of src/src/lib.rs:163-226

The embedded resize policy reproduces every dimension assertion of the
repository's test module (the tests run with the default 80x24 terminal
geometry that `terminal_size()` falls back to without a tty). -/

/-- The eight dimension assertions of the repository's unit tests hold of the
embedding. -/
theorem resize_matches_unit_tests :
    resizeDims 1000 800 none none (80, 24) = (57, 46) ∧
    resizeDims 20 10 none none (80, 24) = (20, 10) ∧
    resizeDims 1000 800 (some 100) none (80, 24) = (100, 80) ∧
    resizeDims 20 10 (some 100) none (80, 24) = (20, 10) ∧
    resizeDims 1000 800 none (some 90) (80, 24) = (225, 180) ∧
    resizeDims 20 10 none (some 4) (80, 24) = (16, 8) ∧
    resizeDims 1000 800 (some 15) (some 9) (80, 24) = (15, 18) ∧
    resizeDims 20 10 (some 15) (some 9) (80, 24) = (15, 18) := by
  decide

/-- The doc-example of `resize` (src/src/lib.rs:101-112): a 1000x800 image
resized into 30x80 cells is 30x160 pixels. -/
theorem resize_matches_doc_example :
    resizeDims 1000 800 (some 30) (some 80) (80, 24) = (30, 160) := by
  decide

/-! ### Arithmetic helpers and branch normal forms -/

/-- Cancellation of an exact trailing factor in truncating division. -/
theorem mul_div_self_right (a b : Nat) (hb : 0 < b) : a * b / b = a := by
  rw [Nat.mul_div_assoc a (dvd_refl b), Nat.div_self hb, Nat.mul_one]

/-- Truncating division respects an upper bound given as a product. -/
theorem div_le_bound (a b c : Nat) (hb : 0 < b) (h : a ≤ c * b) : a / b ≤ c := by
  have h2 : a / b ≤ c * b / b := Nat.div_le_div_right h
  rwa [mul_div_self_right c b hb] at h2

/-- Truncating division respects a strict upper bound given as a product. -/
theorem div_lt_bound (a b c : Nat) (h : a < c * b) : a / b < c :=
  Nat.div_lt_of_lt_mul (by rwa [Nat.mul_comm c b] at h)

/-- Unfolding of the automatic arm of `resizeDims`. -/
theorem resizeDims_none_none (ow oh tw th : Nat) :
    resizeDims ow oh none none (tw, th) =
      resize_dimensions ow oh (if ow > tw then tw else ow)
        (if oh > termRowsSub1 th then 2 * termRowsSub1 th else oh) := rfl

/-- Unfolding of the width-only arm of `resizeDims`. -/
theorem resizeDims_some_none (ow oh w : Nat) (term : Nat × Nat) :
    resizeDims ow oh (some w) none term = resize_dimensions ow oh w oh := rfl

/-- Unfolding of the height-only arm of `resizeDims`. -/
theorem resizeDims_none_some (ow oh h : Nat) (term : Nat × Nat) :
    resizeDims ow oh none (some h) term = resize_dimensions ow oh ow (2 * h % u32Mod) := rfl

/-- Reserving one terminal row never wraps for a real (nonzero) row count. -/
theorem termRowsSub1_eq (th : Nat) (h1 : 1 ≤ th) (h2 : th < u16Mod) :
    termRowsSub1 th = th - 1 := by
  simp only [termRowsSub1, u16Mod] at *
  omega

/-- Normal form of `resize_dimensions` when the width bound is the tighter
constraint: the width is scaled to its bound, the height derived by
truncating division. -/
theorem resize_dimensions_width (width height nwidth nheight : Nat)
    (h1 : nwidth * height ≤ width * nheight) (h2 : height * nwidth / width ≤ u32Max) :
    resize_dimensions width height nwidth nheight =
      (nwidth, max 1 (height * nwidth / width)) := by
  unfold resize_dimensions
  rw [if_pos h1, if_pos (max_le (by decide) h2)]

/-- Normal form of `resize_dimensions` when the height bound is the tighter
constraint. -/
theorem resize_dimensions_height (width height nwidth nheight : Nat)
    (h1 : ¬ nwidth * height ≤ width * nheight) (h2 : width * nheight / height ≤ u32Max) :
    resize_dimensions width height nwidth nheight =
      (max 1 (width * nheight / height), nheight) := by
  unfold resize_dimensions
  rw [if_neg h1, if_pos (max_le (by decide) h2)]

/-- The fit-within computation never upscales as long as at least one of the
bounds does not exceed the corresponding source dimension. -/
theorem resize_dimensions_no_upscale (ow oh pw ph : Nat) (how : 0 < ow) (hoh : 0 < oh)
    (howm : ow ≤ u32Max) (hohm : oh ≤ u32Max) (hb : pw ≤ ow ∨ ph ≤ oh) :
    (resize_dimensions ow oh pw ph).1 ≤ ow ∧ (resize_dimensions ow oh pw ph).2 ≤ oh := by
  by_cases h1 : pw * oh ≤ ow * ph
  · have hpw : pw ≤ ow := by
      rcases hb with h | h
      · exact h
      · have h3 : pw * oh ≤ ow * oh := le_trans h1 (Nat.mul_le_mul le_rfl h)
        exact le_of_mul_le_mul_right h3 hoh
    have hdiv : oh * pw / ow ≤ oh :=
      div_le_bound (oh * pw) ow oh how (Nat.mul_le_mul le_rfl hpw)
    rw [resize_dimensions_width ow oh pw ph h1 (le_trans hdiv hohm)]
    exact ⟨hpw, max_le hoh hdiv⟩
  · have hlt : ow * ph < pw * oh := Nat.not_le.mp h1
    have hph : ph ≤ oh := by
      rcases hb with h | h
      · have h3 : pw * oh ≤ ow * oh := Nat.mul_le_mul h le_rfl
        have h4 : ow * ph < ow * oh := lt_of_lt_of_le hlt h3
        exact le_of_lt (lt_of_mul_lt_mul_left h4 (Nat.zero_le ow))
      · exact h
    have hdiv : ow * ph / oh ≤ ow :=
      div_le_bound (ow * ph) oh ow hoh (Nat.mul_le_mul le_rfl hph)
    rw [resize_dimensions_height ow oh pw ph h1 (le_trans hdiv howm)]
    exact ⟨max_le how hdiv, hph⟩

/-- The fit-within computation is the identity on the source dimensions when
one bound equals the corresponding source dimension and the other is no
smaller than its source dimension. -/
theorem resize_dimensions_unchanged (ow oh pw ph : Nat) (how : 0 < ow) (hoh : 0 < oh)
    (howm : ow ≤ u32Max) (hohm : oh ≤ u32Max)
    (hb : (pw = ow ∧ oh ≤ ph) ∨ (ph = oh ∧ ow ≤ pw)) :
    resize_dimensions ow oh pw ph = (ow, oh) := by
  have hcan : oh * ow / ow = oh := mul_div_self_right oh ow how
  have hcan2 : ow * oh / oh = ow := mul_div_self_right ow oh hoh
  rcases hb with ⟨hpw, hph⟩ | ⟨hph, hpw⟩
  · rw [hpw]
    have h1 : ow * oh ≤ ow * ph := Nat.mul_le_mul le_rfl hph
    rw [resize_dimensions_width ow oh ow ph h1 (by rw [hcan]; exact hohm), hcan,
      max_eq_right hoh]
  · rw [hph]
    rcases Nat.eq_or_lt_of_le hpw with heq | hlt
    · rw [← heq]
      rw [resize_dimensions_width ow oh ow oh le_rfl (by rw [hcan]; exact hohm), hcan,
        max_eq_right hoh]
    · have h1 : ¬ pw * oh ≤ ow * oh :=
        Nat.not_le.mpr (mul_lt_mul_of_pos_right hlt hoh)
      rw [resize_dimensions_height ow oh pw oh h1 (by rw [hcan2]; exact howm), hcan2,
        max_eq_right how]

/-! ### Claim theorems -/

/-- C1: with both a cell width `w` and a cell height `h` given, `resize`
returns an image of exactly `(w, 2*h)` pixels, for every source image and
terminal geometry (aspect ratio is not preserved; upscaling happens when
needed), provided the doubled height does not overflow `u32`. -/
theorem resize_both_exact (ow oh w h : Nat) (_hw : w ≤ u32Max) (hh : 2 * h < u32Mod)
    (term : Nat × Nat) :
    resizeDims ow oh (some w) (some h) term = (w, 2 * h) := by
  simp [resizeDims, Nat.mod_eq_of_lt hh]

/-- Witness for C1 at the test image: a 1000x800 image with width 15 and
height 9 becomes exactly 15x18. -/
theorem resize_both_exact_witness :
    resizeDims 1000 800 (some 15) (some 9) (80, 24) = (15, 18) :=
  resize_both_exact 1000 800 15 9 (by decide) (by decide) (80, 24)

/-- C7: `resize` is idempotent on matching input: an image whose dimensions
already equal the requested target (w, 2*h) keeps its dimensions. -/
theorem resize_idempotent_on_match (ow oh w h : Nat) (hw : ow = w) (hh : oh = 2 * h)
    (hlt : 2 * h < u32Mod) (term : Nat × Nat) :
    resizeDims ow oh (some w) (some h) term = (ow, oh) := by
  subst hw
  subst hh
  simp [resizeDims, Nat.mod_eq_of_lt hlt]

/-- Witness for C7: a 15x18 image requested at width 15 and height 9 is
returned with its dimensions unchanged. -/
theorem resize_idempotent_on_match_witness :
    resizeDims 15 18 (some 15) (some 9) (80, 24) = (15, 18) :=
  resize_idempotent_on_match 15 18 15 9 rfl rfl (by decide) (80, 24)

/-- C3 counterexample: with terminal geometry (60, 47) a 1000x800 image is
resized to 60x48, not to the 57x46 the specification states for that
geometry. -/
theorem resize_auto_60x47_not_57x46 :
    resizeDims 1000 800 none none (60, 47) = (60, 48) ∧
    ((60 : Nat), (48 : Nat)) ≠ ((57 : Nat), (46 : Nat)) := by
  decide

/-- C3 amended: with terminal geometry (60, 47) the output is 60x48; the
57x46 of the specification is what the default 80x24 geometry (used by the
repository's tests when no tty answers the size query) produces. -/
theorem resize_auto_60x47_dims :
    resizeDims 1000 800 none none (60, 47) = (60, 48) ∧
    resizeDims 1000 800 none none (80, 24) = (57, 46) := by
  decide

/-- C5 counterexample: in the automatic branch the output aspect ratio is not
exactly the input aspect ratio: the 1000x800 test image shrinks (in the
default 80x24 terminal) to 57x46, and 57 * 800 is not equal to 1000 * 46. -/
theorem resize_auto_aspect_not_exact :
    resizeDims 1000 800 none none (80, 24) = (57, 46) ∧
    57 < 1000 ∧ 46 < 800 ∧ 57 * 800 ≠ 1000 * 46 := by
  decide

/-- C9: `print` hands the block printer exactly the input image when the
config's resize flag is false (the config's width and height play no part in
sizing), and `resize(img, config.width, config.height)` when the flag is
true. -/
theorem print_resize_flag_dispatch (img : Image) (cfg : Config) (term : Nat × Nat) :
    print img cfg term =
      Except.ok
        (blockPrint
          (if cfg.resize then resizeImage img cfg.width cfg.height term else img) cfg) := by
  by_cases hc : cfg.resize = true
  · simp [print, hc]
  · simp [print, hc]

/-- C8: a decode failure makes `print_from_file` return the image-error kind,
which is distinct from the I/O error kind, and no rendering happens: the
result differs from every successful `print` outcome. -/
theorem print_from_file_decode_error_aborts (e : ImageError) (cfg : Config)
    (term : Nat × Nat) (img : Image) :
    print_from_file (Except.error e) cfg term = Except.error (ViuError.imageError e) ∧
    ViuError.imageError e ≠ ViuError.ioError ∧
    print_from_file (Except.error e) cfg term ≠ print img cfg term := by
  refine ⟨rfl, by simp, ?_⟩
  by_cases hc : cfg.resize = true
  · simp [print_from_file, print, hc]
  · simp [print_from_file, print, hc]

/-- Witness for C8 at a concrete decode error, config and image: the error
propagates and no rendering output is produced. -/
theorem print_from_file_decode_error_aborts_witness :
    print_from_file (Except.error ⟨7⟩) ⟨none, none, true, false⟩ (80, 24) =
      Except.error (ViuError.imageError ⟨7⟩) ∧
    ViuError.imageError ⟨7⟩ ≠ ViuError.ioError ∧
    print_from_file (Except.error ⟨7⟩) ⟨none, none, true, false⟩ (80, 24) ≠
      print ⟨2, 2, fun _ _ => ⟨0, 0, 0, 255⟩⟩ ⟨none, none, true, false⟩ (80, 24) :=
  print_from_file_decode_error_aborts ⟨7⟩ ⟨none, none, true, false⟩ (80, 24)
    ⟨2, 2, fun _ _ => ⟨0, 0, 0, 255⟩⟩

/-- C10: the automatic branch subtracts one from the reported row count in
`u16` arithmetic; for at least one reported row the value is the expected
`term_h - 1`, while a reported row count of zero wraps around to 65535 (so
the subtraction underflows), making a zero-row terminal behave as an
enormous height bound: a 20x10 image is then left at 20x10. -/
theorem term_rows_sub_underflow (th : Nat) (h1 : 1 ≤ th) (h2 : th < u16Mod) :
    termRowsSub1 th = th - 1 ∧ termRowsSub1 0 = 65535 ∧
    resizeDims 20 10 none none (80, 0) = (20, 10) := by
  refine ⟨?_, by decide, by decide⟩
  simp only [termRowsSub1, u16Mod] at *
  omega

/-- Witness for C10 at the default terminal height 24. -/
theorem term_rows_sub_underflow_witness :
    termRowsSub1 24 = 23 ∧ termRowsSub1 0 = 65535 ∧
    resizeDims 20 10 none none (80, 0) = (20, 10) :=
  term_rows_sub_underflow 24 (by decide) (by decide)

/-- C2 counterexample: for a 1000x800 source and width 57 the code produces
height 45, the truncation of 800 * 57 / 1000 = 45.6, while rounding to the
nearest integer as the claim states would give 46. -/
theorem resize_width_only_not_round :
    resizeDims 1000 800 (some 57) none (80, 24) = (57, 45) ∧
    roundDiv (800 * 57) 1000 = 46 ∧
    (resizeDims 1000 800 (some 57) none (80, 24)).2 ≠ roundDiv (800 * 57) 1000 := by
  decide

/-- C2 amended: width-only resize: when the native width exceeds `w` the
output width is exactly `w` and the height is the aspect-derived value by
TRUNCATING division (with a one-pixel floor), not round-to-nearest; when the
native width is at most `w` the dimensions are unchanged. -/
theorem resize_width_only_floor (ow oh w : Nat) (how : 0 < ow) (hoh : 0 < oh)
    (howm : ow ≤ u32Max) (hohm : oh ≤ u32Max) (term : Nat × Nat) :
    (w < ow → resizeDims ow oh (some w) none term = (w, max 1 (oh * w / ow))) ∧
    (ow ≤ w → resizeDims ow oh (some w) none term = (ow, oh)) := by
  constructor
  · intro hlt
    rw [resizeDims_some_none]
    have h1 : w * oh ≤ ow * oh := Nat.mul_le_mul (le_of_lt hlt) le_rfl
    have hdiv : oh * w / ow ≤ oh :=
      div_le_bound (oh * w) ow oh how (Nat.mul_le_mul le_rfl (le_of_lt hlt))
    rw [resize_dimensions_width ow oh w oh h1 (le_trans hdiv hohm)]
  · intro hle
    rw [resizeDims_some_none]
    exact resize_dimensions_unchanged ow oh w oh how hoh howm hohm (Or.inr ⟨rfl, hle⟩)

/-- Witness for the amended C2: shrinking to width 100 derives height 80 by
truncation (matching the repository test), and a 20x10 image bounded by
width 100 is unchanged. -/
theorem resize_width_only_floor_witness :
    resizeDims 1000 800 (some 100) none (80, 24) = (100, max 1 (800 * 100 / 1000)) ∧
    resizeDims 20 10 (some 100) none (80, 24) = (20, 10) :=
  ⟨(resize_width_only_floor 1000 800 100 (by decide) (by decide) (by decide) (by decide)
      (80, 24)).1 (by decide),
    (resize_width_only_floor 20 10 100 (by decide) (by decide) (by decide) (by decide)
      (80, 24)).2 (by decide)⟩

/-- C4: height-only resize fits the image within the pixel height bound
2*h preserving the aspect ratio: when the native height exceeds 2*h the
output height is exactly 2*h and the width is the aspect-derived value
(truncating, with a one-pixel floor); otherwise the dimensions are
unchanged. In particular a 1000x800 image at height 90 yields 225x180. -/
theorem resize_height_only_fits (ow oh h : Nat) (how : 0 < ow) (hoh : 0 < oh)
    (howm : ow ≤ u32Max) (hohm : oh ≤ u32Max) (hh : 2 * h < u32Mod) (term : Nat × Nat) :
    (2 * h < oh →
      resizeDims ow oh none (some h) term = (max 1 (ow * (2 * h) / oh), 2 * h)) ∧
    (oh ≤ 2 * h → resizeDims ow oh none (some h) term = (ow, oh)) ∧
    resizeDims 1000 800 none (some 90) term = (225, 180) := by
  refine ⟨?_, ?_, by rw [resizeDims_none_some]; decide⟩
  · intro hlt
    rw [resizeDims_none_some, Nat.mod_eq_of_lt hh]
    have h1 : ¬ ow * oh ≤ ow * (2 * h) :=
      Nat.not_le.mpr (mul_lt_mul_of_pos_left hlt how)
    have hdiv : ow * (2 * h) / oh ≤ ow :=
      div_le_bound (ow * (2 * h)) oh ow hoh (Nat.mul_le_mul le_rfl (le_of_lt hlt))
    rw [resize_dimensions_height ow oh ow (2 * h) h1 (le_trans hdiv howm)]
  · intro hle
    rw [resizeDims_none_some, Nat.mod_eq_of_lt hh]
    exact resize_dimensions_unchanged ow oh ow (2 * h) how hoh howm hohm
      (Or.inl ⟨rfl, hle⟩)

/-- Witness for C4: a 20x10 image at height 4 becomes 16x8 (downscaled and
aspect-derived), at height 5 it is unchanged, and the 1000x800 image at
height 90 becomes 225x180. -/
theorem resize_height_only_fits_witness :
    resizeDims 20 10 none (some 4) (80, 24) = (max 1 (20 * (2 * 4) / 10), 2 * 4) ∧
    resizeDims 20 10 none (some 5) (80, 24) = (20, 10) ∧
    resizeDims 1000 800 none (some 90) (80, 24) = (225, 180) := by
  have h4 := resize_height_only_fits 20 10 4 (by decide) (by decide) (by decide)
    (by decide) (by decide) (80, 24)
  have h5 := resize_height_only_fits 20 10 5 (by decide) (by decide) (by decide)
    (by decide) (by decide) (80, 24)
  exact ⟨h4.1 (by decide), h5.2.1 (by decide), h5.2.2⟩

/-- C5 amended: in the automatic branch the output width is at most the
terminal column count and the output height at most 2*(rows - 1), for
terminals with at least one column and at least two rows; the aspect ratio is
preserved only up to truncating integer division: the free dimension equals
the constrained one scaled by the exact ratio, truncated (with a one-pixel
floor), rather than being exactly proportional. -/
theorem resize_auto_bounds_floor_aspect (ow oh tw th : Nat) (how : 0 < ow) (hoh : 0 < oh)
    (howm : ow ≤ u32Max) (hohm : oh ≤ u32Max) (htw : 1 ≤ tw) (hth : 2 ≤ th)
    (hth2 : th < u16Mod) :
    (resizeDims ow oh none none (tw, th)).1 ≤ tw ∧
    (resizeDims ow oh none none (tw, th)).2 ≤ 2 * (th - 1) ∧
    ((resizeDims ow oh none none (tw, th)).2 =
        max 1 (oh * (resizeDims ow oh none none (tw, th)).1 / ow) ∨
      (resizeDims ow oh none none (tw, th)).1 =
        max 1 (ow * (resizeDims ow oh none none (tw, th)).2 / oh)) := by
  have hsub : termRowsSub1 th = th - 1 := termRowsSub1_eq th (by omega) hth2
  have hpwle : (if ow > tw then tw else ow) ≤ ow := by
    by_cases hc : ow > tw
    · rw [if_pos hc]; exact le_of_lt hc
    · rw [if_neg hc]
  have hpwtw : (if ow > tw then tw else ow) ≤ tw := by
    by_cases hc : ow > tw
    · rw [if_pos hc]
    · rw [if_neg hc]; exact le_of_not_lt hc
  rw [resizeDims_none_none, hsub]
  by_cases hph : oh > th - 1
  · rw [if_pos hph]
    by_cases h1 : (if ow > tw then tw else ow) * oh ≤ ow * (2 * (th - 1))
    · have hdiv : oh * (if ow > tw then tw else ow) / ow ≤ 2 * (th - 1) := by
        apply div_le_bound _ ow _ how
        calc oh * (if ow > tw then tw else ow)
            = (if ow > tw then tw else ow) * oh := Nat.mul_comm _ _
          _ ≤ ow * (2 * (th - 1)) := h1
          _ = 2 * (th - 1) * ow := Nat.mul_comm _ _
      have hdiv2 : oh * (if ow > tw then tw else ow) / ow ≤ oh :=
        div_le_bound _ ow oh how (Nat.mul_le_mul le_rfl hpwle)
      rw [resize_dimensions_width ow oh _ _ h1 (le_trans hdiv2 hohm)]
      exact ⟨hpwtw, max_le (by omega) hdiv, Or.inl rfl⟩
    · have hlt : ow * (2 * (th - 1)) < (if ow > tw then tw else ow) * oh :=
        Nat.not_le.mp h1
      have h2hlt : 2 * (th - 1) < oh := by
        have h3 : (if ow > tw then tw else ow) * oh ≤ ow * oh :=
          Nat.mul_le_mul hpwle le_rfl
        have h4 : ow * (2 * (th - 1)) < ow * oh := lt_of_lt_of_le hlt h3
        exact lt_of_mul_lt_mul_left h4 (Nat.zero_le ow)
      have hdiv : ow * (2 * (th - 1)) / oh ≤ ow :=
        div_le_bound _ oh ow hoh (Nat.mul_le_mul le_rfl (le_of_lt h2hlt))
      rw [resize_dimensions_height ow oh _ _ h1 (le_trans hdiv howm)]
      refine ⟨?_, le_rfl, Or.inr rfl⟩
      have hdivlt : ow * (2 * (th - 1)) / oh < (if ow > tw then tw else ow) :=
        div_lt_bound _ oh _ hlt
      exact max_le htw (le_of_lt (lt_of_lt_of_le hdivlt hpwtw))
  · rw [if_neg hph]
    have hohle : oh ≤ th - 1 := le_of_not_lt hph
    have h1 : (if ow > tw then tw else ow) * oh ≤ ow * oh :=
      Nat.mul_le_mul hpwle le_rfl
    have hdiv2 : oh * (if ow > tw then tw else ow) / ow ≤ oh :=
      div_le_bound _ ow oh how (Nat.mul_le_mul le_rfl hpwle)
    rw [resize_dimensions_width ow oh _ _ h1 (le_trans hdiv2 hohm)]
    exact ⟨hpwtw, max_le (by omega) (le_trans hdiv2 (by omega)), Or.inl rfl⟩

/-- Witness for the amended C5 at the 1000x800 test image in the default
80x24 terminal: 57 <= 80, 46 <= 46, and the width 57 is the truncation of
1000 * 46 / 800 (the height being the constrained axis). -/
theorem resize_auto_bounds_floor_aspect_witness :
    (resizeDims 1000 800 none none (80, 24)).1 ≤ 80 ∧
    (resizeDims 1000 800 none none (80, 24)).2 ≤ 2 * (24 - 1) ∧
    ((resizeDims 1000 800 none none (80, 24)).2 =
        max 1 (800 * (resizeDims 1000 800 none none (80, 24)).1 / 1000) ∨
      (resizeDims 1000 800 none none (80, 24)).1 =
        max 1 (1000 * (resizeDims 1000 800 none none (80, 24)).2 / 800)) :=
  resize_auto_bounds_floor_aspect 1000 800 80 24 (by decide) (by decide) (by decide)
    (by decide) (by decide) (by decide) (by decide)

/-- C6: shrink-only semantics of the three fit-within branches (width and
height not both given): the output dimensions never exceed the source
dimensions (no upscaling), and whenever the source already fits within the
computed pixel bounds the dimensions are returned unchanged. -/
theorem resize_fit_shrink_only (ow oh tw th w h : Nat) (how : 0 < ow) (hoh : 0 < oh)
    (howm : ow ≤ u32Max) (hohm : oh ≤ u32Max) (hth1 : 1 ≤ th) (hth2 : th < u16Mod)
    (hh : 2 * h < u32Mod) :
    ((resizeDims ow oh none none (tw, th)).1 ≤ ow ∧
      (resizeDims ow oh none none (tw, th)).2 ≤ oh) ∧
    ((resizeDims ow oh (some w) none (tw, th)).1 ≤ ow ∧
      (resizeDims ow oh (some w) none (tw, th)).2 ≤ oh) ∧
    ((resizeDims ow oh none (some h) (tw, th)).1 ≤ ow ∧
      (resizeDims ow oh none (some h) (tw, th)).2 ≤ oh) ∧
    (ow ≤ tw → oh ≤ 2 * (th - 1) → resizeDims ow oh none none (tw, th) = (ow, oh)) ∧
    (ow ≤ w → resizeDims ow oh (some w) none (tw, th) = (ow, oh)) ∧
    (oh ≤ 2 * h → resizeDims ow oh none (some h) (tw, th) = (ow, oh)) := by
  have hsub : termRowsSub1 th = th - 1 := termRowsSub1_eq th hth1 hth2
  have hpwle : (if ow > tw then tw else ow) ≤ ow := by
    by_cases hc : ow > tw
    · rw [if_pos hc]; exact le_of_lt hc
    · rw [if_neg hc]
  refine ⟨?_, ?_, ?_, ?_, ?_, ?_⟩
  · rw [resizeDims_none_none]
    exact resize_dimensions_no_upscale ow oh _ _ how hoh howm hohm (Or.inl hpwle)
  · rw [resizeDims_some_none]
    exact resize_dimensions_no_upscale ow oh w oh how hoh howm hohm (Or.inr le_rfl)
  · rw [resizeDims_none_some]
    exact resize_dimensions_no_upscale ow oh ow _ how hoh howm hohm (Or.inl le_rfl)
  · intro hwfit hhfit
    rw [resizeDims_none_none, hsub, if_neg (not_lt.mpr hwfit)]
    by_cases hc : oh > th - 1
    · rw [if_pos hc]
      exact resize_dimensions_unchanged ow oh ow _ how hoh howm hohm
        (Or.inl ⟨rfl, hhfit⟩)
    · rw [if_neg hc]
      exact resize_dimensions_unchanged ow oh ow oh how hoh howm hohm
        (Or.inl ⟨rfl, le_rfl⟩)
  · intro hwfit
    rw [resizeDims_some_none]
    exact resize_dimensions_unchanged ow oh w oh how hoh howm hohm
      (Or.inr ⟨rfl, hwfit⟩)
  · intro hhfit
    rw [resizeDims_none_some, Nat.mod_eq_of_lt hh]
    exact resize_dimensions_unchanged ow oh ow (2 * h) how hoh howm hohm
      (Or.inl ⟨rfl, hhfit⟩)

/-- Witness for C6 at a 20x10 image that fits everywhere: no bound shrinks it
and every fit-within branch returns 20x10 unchanged. -/
theorem resize_fit_shrink_only_witness :
    (resizeDims 20 10 none none (80, 24)).1 ≤ 20 ∧
    (resizeDims 20 10 none none (80, 24)).2 ≤ 10 ∧
    resizeDims 20 10 none none (80, 24) = (20, 10) ∧
    resizeDims 20 10 (some 100) none (80, 24) = (20, 10) ∧
    resizeDims 20 10 none (some 5) (80, 24) = (20, 10) := by
  have hmain := resize_fit_shrink_only 20 10 80 24 100 5 (by decide) (by decide)
    (by decide) (by decide) (by decide) (by decide) (by decide)
  exact ⟨hmain.1.1, hmain.1.2, hmain.2.2.2.1 (by decide) (by decide),
    hmain.2.2.2.2.1 (by decide), hmain.2.2.2.2.2 (by decide)⟩

end Viuer
